import Mathlib

/-!
Shallow embedding of the VoiceInput application (a Python tray utility for
offline dictation) and proofs about its specification claims.

Each definition is translated from a concrete function of the source tree
(`src/src/*.py`); the file is organised as: embeddings first, then, at the
end, one theorem per specification claim.
-/

namespace VoiceInput

/-! ## Updater (`src/src/updater.py`)

`parse_version` strips leading `v`/`V` characters (Python `str.lstrip('vV')`),
splits on `.`, extracts the digit characters of each segment, converts each
non-empty digit string to an integer, and returns `(0,)` when nothing remains.
`is_newer_version` compares the two parsed tuples with Python tuple `>`.
-/

/-- Python `int` on a string of decimal digits. -/
def digitsToNat (ds : List Char) : Nat :=
  ds.foldl (fun acc c => acc * 10 + (c.toNat - '0'.toNat)) 0

/-- Python `str.split(sep)` on a single separator character, as list of
segments (Python keeps empty segments). -/
def splitOnChar (sep : Char) (s : List Char) : List (List Char) :=
  match s with
  | [] => [[]]
  | c :: rest =>
    let tail := splitOnChar sep rest
    if c = sep then
      [] :: tail
    else
      match tail with
      | [] => [[c]]
      | seg :: segs => (c :: seg) :: segs

/-- `updater.parse_version`: strip leading `v`/`V`, split on `.`, keep only
digit characters per segment, drop digitless segments, default `(0,)`. -/
def parse_version (version : String) : List Nat :=
  let stripped := version.toList.dropWhile (fun c => c == 'v' || c == 'V')
  let parts := splitOnChar '.' stripped
  let result := parts.filterMap (fun p =>
    let digits := p.filter Char.isDigit
    if digits.isEmpty then none else some (digitsToNat digits))
  if result.isEmpty then [0] else result

/-- Python tuple `<` on integer tuples: lexicographic, a strict prefix is
smaller. -/
def tupleLt : List Nat → List Nat → Bool
  | [], [] => false
  | [], _ :: _ => true
  | _ :: _, [] => false
  | a :: as, b :: bs => if a < b then true else if b < a then false else tupleLt as bs

/-- `updater.is_newer_version(latest, current)` =
`parse_version(latest) > parse_version(current)`. -/
def is_newer_version (latest current : String) : Bool :=
  tupleLt (parse_version current) (parse_version latest)

/-! ## Word counting and trailing space (`src/src/main.py`)

`VoiceInputApp._count_words` does `[w for w in text.split() if w.strip()]`;
the final-result branch of `_process_audio` appends `' '` to a non-empty
processed text unless it ends with `' '`, `'\n'` or `'\r'`
(`processed_text.endswith((' ', '\n', '\r'))`).
-/

/-- The characters Python `str.split()` / `str.strip()` treat as whitespace
(the ASCII ones; transcripts are built from recognised words and the
voice-command replacement characters). -/
def isPySpace (c : Char) : Bool :=
  c == ' ' || c == '\t' || c == '\n' || c == '\r' || c == '\x0b' || c == '\x0c'

/-- Python `str.split()` with no argument: split on runs of whitespace,
discarding empty tokens. -/
def pySplit (s : List Char) : List (List Char) :=
  (s.splitOnP isPySpace).filter (fun w => !w.isEmpty)

/-- `main.VoiceInputApp._count_words`. -/
def count_words (text : String) : Nat :=
  if text.isEmpty then 0
  else ((pySplit text.toList).filter
    (fun w => !(w.filter (fun c => !isPySpace c)).isEmpty)).length

/-- The trailing-space rule applied to a non-empty processed final result in
`main.VoiceInputApp._process_audio`: append `' '` unless the text ends in
`' '`, `'\n'` or `'\r'`. -/
def appendTrailingSpace (text : String) : String :=
  match text.toList.getLast? with
  | some c => if c = ' ' ∨ c = '\n' ∨ c = '\r' then text else text ++ " "
  | none => text ++ " "

/-! ## Configuration store (`src/src/config.py`)

JSON documents are modelled as `JVal`; objects are association lists in
Python-dict insertion order (updating an existing key keeps its position,
a new key is appended at the end).
-/

/-- A JSON value as produced by `json.loads`. -/
inductive JVal where
  | jnull : JVal
  | jbool (b : Bool) : JVal
  | jnum (n : Int) : JVal
  | jstr (s : String) : JVal
  | jobj (fields : List (String × JVal)) : JVal

/-- Python `d[k]` lookup on a dict (first, and only, binding of `k`). -/
def lookupF (fields : List (String × JVal)) (k : String) : Option JVal :=
  match fields with
  | [] => none
  | (k', v) :: rest => if k' = k then some v else lookupF rest k

/-- Python `d[k] = v` on a dict: replace in place when `k` is present,
append at the end otherwise. -/
def setKey (fields : List (String × JVal)) (k : String) (v : JVal) :
    List (String × JVal) :=
  match fields with
  | [] => [(k, v)]
  | (k', v') :: rest =>
    if k' = k then (k, v) :: rest else (k', v') :: setKey rest k v

mutual

/-- One merge step of `Config._deep_merge`: when both the existing and the
overriding value are dicts, merge recursively, otherwise the override wins. -/
def deepMergeV : JVal → JVal → JVal
  | JVal.jobj bf, JVal.jobj vf => JVal.jobj (deepMergeF bf vf)
  | _, v => v

/-- `Config._deep_merge(base, override)`: start from a copy of `base` and
fold the entries of `override` into it. -/
def deepMergeF : List (String × JVal) → List (String × JVal) → List (String × JVal)
  | base, [] => base
  | base, (k, v) :: rest =>
    let nv := match lookupF base k with
      | some bv => deepMergeV bv v
      | none => v
    deepMergeF (setKey base k nv) rest

end

/-- `Config._get_default_config()`. -/
def defaultConfigFields : List (String × JVal) :=
  [ ("audio", JVal.jobj
      [ ("sample_rate", JVal.jnum 16000)
      , ("chunk_size", JVal.jnum 8000)
      , ("channels", JVal.jnum 1)
      , ("device_index", JVal.jnull) ])
  , ("vosk", JVal.jobj
      [ ("model_path", JVal.jstr "models/vosk-model-ru-0.42")
      , ("language", JVal.jstr "ru") ])
  , ("hotkeys", JVal.jobj
      [ ("toggle", JVal.jstr "win+h")
      , ("pause", JVal.jstr "ctrl+shift+p")
      , ("hold_mode", JVal.jbool false) ])
  , ("input", JVal.jobj [ ("method", JVal.jstr "clipboard") ])
  , ("voice_commands", JVal.jobj
      [ ("запятая", JVal.jstr ",")
      , ("точка", JVal.jstr ".")
      , ("восклицательный знак", JVal.jstr "!")
      , ("вопросительный знак", JVal.jstr "?")
      , ("двоеточие", JVal.jstr ":")
      , ("точка с запятой", JVal.jstr ";")
      , ("новая строка", JVal.jstr "\n")
      , ("абзац", JVal.jstr "\n\n")
      , ("пробел", JVal.jstr " ") ])
  , ("vad", JVal.jobj
      [ ("enabled", JVal.jbool true)
      , ("aggressiveness", JVal.jnum 2) ])
  , ("notifications", JVal.jobj
      [ ("enabled", JVal.jbool true)
      , ("sound_enabled", JVal.jbool true) ])
  , ("auto_start", JVal.jbool false)
  , ("log_level", JVal.jstr "INFO")
  , ("tutorial_shown", JVal.jbool false)
  , ("check_updates", JVal.jbool true)
  , ("dark_theme", JVal.jbool true) ]

/-- The default configuration document. -/
def defaultConfig : JVal := JVal.jobj defaultConfigFields

/-- The state of the configuration file as `Config._load_config` observes it:
absent, empty after `strip()`, present but not valid JSON (with its raw
bytes), or parsing to a JSON value. -/
inductive FileContent where
  | missing : FileContent
  | empty : FileContent
  | invalid (raw : String) : FileContent
  | valid (doc : JVal) : FileContent

/-- What `Config._load_config` returns and which disk writes it performs:
the in-memory document, the document written to the config path (if any),
and the raw bytes copied to the `.json.broken` sibling (if any). -/
structure LoadResult where
  config : JVal
  saved : Option JVal
  brokenBackup : Option String

/-- `Config._load_config`, with the filesystem abstracted into
`FileContent`.  Missing file: save and return defaults.  Empty file: save
and return defaults.  JSON syntax error: copy the raw bytes to the
`.json.broken` backup, save and return defaults.  A parsed non-dict makes
`_deep_merge` raise (`override.items()`), which the broad `except` turns
into returning defaults without saving.  A parsed dict is deep-merged over
the defaults and returned; the merged document is only compared against the
loaded one for logging, never saved. -/
def loadConfig : FileContent → LoadResult
  | FileContent.missing => ⟨defaultConfig, some defaultConfig, none⟩
  | FileContent.empty => ⟨defaultConfig, some defaultConfig, none⟩
  | FileContent.invalid raw => ⟨defaultConfig, some defaultConfig, some raw⟩
  | FileContent.valid (JVal.jobj loaded) =>
      ⟨JVal.jobj (deepMergeF defaultConfigFields loaded), none, none⟩
  | FileContent.valid _ => ⟨defaultConfig, none, none⟩

/-- `Config.get(key, default)` after the dotted key has been split: walk the
document through nested dicts, returning `none` (the caller's default) as
soon as a component is missing or the current value is not a dict. -/
def getPath (doc : JVal) : List String → Option JVal
  | [] => some doc
  | k :: rest =>
    match doc with
    | JVal.jobj fields =>
      match lookupF fields k with
      | some v => getPath v rest
      | none => none
    | _ => none

/-- `Config.set(key, value)` after the dotted key has been split.  The loop
walks `keys[:-1]`, creating `{}` for a missing component; indexing into a
non-dict value raises `TypeError` (modelled as `Except.error`), in which
case the document is unchanged and `_save_config` is never reached.  On
success the updated document is returned and saved. -/
def setPath (doc : JVal) (keys : List String) (v : JVal) : Except String JVal :=
  match doc, keys with
  | _, [] => Except.error "empty key"
  | JVal.jobj fields, [k] => Except.ok (JVal.jobj (setKey fields k v))
  | JVal.jobj fields, k :: rest =>
    let child := match lookupF fields k with
      | some c => c
      | none => JVal.jobj []
    match setPath child rest v with
    | Except.ok child' => Except.ok (JVal.jobj (setKey fields k child'))
    | Except.error e => Except.error e
  | _, _ => Except.error "TypeError"

/-- `pathlib.Path.with_suffix` on a file name with an extension: the part
after the last dot is replaced by the new suffix (so
`Path("config.json").with_suffix(".json.broken")` is `config.json.broken`,
the backup name used on a JSON syntax error). -/
def withSuffix (name suffix : String) : String :=
  let rev := name.toList.reverse
  match rev.dropWhile (fun c => !(c == '.')) with
  | [] => name ++ suffix
  | _ :: stemRev => String.mk stemRev.reverse ++ suffix

mutual

/-- Do all dicts inside a JSON value have pairwise-distinct keys?  True of
everything `json.loads` produces (Python dicts cannot repeat a key) and of
the built-in defaults; the association-list embedding needs it stated. -/
def nodupDeepV : JVal → Bool
  | JVal.jobj f => nodupDeepF f
  | _ => true

/-- `nodupDeepV` on a field list. -/
def nodupDeepF : List (String × JVal) → Bool
  | [] => true
  | (k, v) :: rest => (lookupF rest k).isNone && nodupDeepV v && nodupDeepF rest

end

mutual

/-- Is a loaded value map-compatible with a default value: wherever the
default is a dict, the loaded value overriding it is also a dict
(recursively)?  This is the condition under which `_deep_merge` keeps the
whole default schema reachable. -/
def compatV : JVal → JVal → Bool
  | JVal.jobj dff, JVal.jobj lff => compatF dff lff
  | JVal.jobj _, _ => false
  | _, _ => true

/-- `compatV` between a default field list and a loaded field list: checked
at every default key the loaded list also has. -/
def compatF : List (String × JVal) → List (String × JVal) → Bool
  | [], _ => true
  | (k, dv) :: rest, lf =>
    (match lookupF lf k with
     | some lv => compatV dv lv
     | none => true) && compatF rest lf

end

mutual

/-- Schema containment: every key path of the first value exists in the
second (with dict structure preserved); leaf defaults only require the key
to be present. -/
def schemaLe : JVal → JVal → Bool
  | JVal.jobj af, b =>
    match b with
    | JVal.jobj bf => fieldsLeS af bf
    | _ => false
  | _, _ => true

/-- `schemaLe` on field lists: every field of the first list is present in
the second with a `schemaLe`-related value. -/
def fieldsLeS : List (String × JVal) → List (String × JVal) → Bool
  | [], _ => true
  | (k, v) :: rest, bf =>
    (match lookupF bf k with
     | some w => schemaLe v w
     | none => false) && fieldsLeS rest bf

end

/-- Python `key.split('.')` as used by `Config.get` / `Config.set`. -/
def splitDotted (key : String) : List String :=
  (splitOnChar '.' key.toList).map (fun l => String.mk l)

/-- `Config.set(key, value)`: split the dotted key and traverse; the second
component records what `_save_config` writes to disk — on a `TypeError`
the save is never reached. -/
def config_set (doc : JVal) (key : String) (v : JVal) :
    Except String JVal × Option JVal :=
  match setPath doc (splitDotted key) v with
  | Except.ok d => (Except.ok d, some d)
  | Except.error e => (Except.error e, none)

/-- Decides whether the traversal done by `Config.set` meets an existing
non-dict value before (or at) the final assignment, i.e. whether the call
raises `TypeError`. -/
def setHitsNonDict : JVal → List String → Bool
  | JVal.jobj _, [] => false
  | JVal.jobj _, [_] => false
  | JVal.jobj fields, k :: rest =>
    match lookupF fields k with
    | some c => setHitsNonDict c rest
    | none => false
  | _, _ => true

/-! ## Voice commands (`src/src/voice_commands.py`)

`VoiceCommands.process_text` iterates over the normalised (lower-cased)
command map in insertion order and, for each phrase, performs
`re.sub(r'\b' + re.escape(command) + r'\b', replacement, text, flags=re.IGNORECASE)`.
The regex machinery is embedded directly: a left-to-right scan replacing
every non-overlapping, case-insensitive, word-boundary-delimited occurrence.
-/

/-- Python `str.lower()` on the alphabets this application handles
(ASCII and Cyrillic; other characters are unchanged). -/
def toLowerU (c : Char) : Char :=
  if 'A' ≤ c ∧ c ≤ 'Z' then Char.ofNat (c.toNat + 32)
  else if 0x410 ≤ c.toNat ∧ c.toNat ≤ 0x42F then Char.ofNat (c.toNat + 32)
  else if c.toNat = 0x401 then Char.ofNat 0x451
  else c

/-- Python `re` word character (`\w`) over the alphabets this application
handles: ASCII alphanumerics, `_`, and the Cyrillic block. -/
def isWordChar (c : Char) : Bool :=
  c.isAlphanum || c == '_' || (decide (0x400 ≤ c.toNat) && decide (c.toNat ≤ 0x4FF))

/-- `isWordChar` of an optional character; out-of-string positions count as
non-word, as in `re`. -/
def optIsWord : Option Char → Bool
  | some c => isWordChar c
  | none => false

/-- Case-insensitive "is `cmd` a prefix of `text`" (how `re.IGNORECASE`
compares pattern literals to the subject). -/
def ciPrefix : List Char → List Char → Bool
  | [], _ => true
  | _ :: _, [] => false
  | a :: as, b :: bs => toLowerU a == toLowerU b && ciPrefix as bs

/-- Does `\b cmd \b` (case-insensitively) match at the current position,
where `prev` is the subject character just before that position? -/
def matchHere (cmd : List Char) (prev : Option Char) (text : List Char) : Bool :=
  ciPrefix cmd text &&
  Bool.xor (optIsWord prev) (optIsWord text.head?) &&
  Bool.xor (optIsWord (text.take cmd.length).getLast?) (optIsWord (text.drop cmd.length).head?)

/-- The scan of `re.sub`: at each position, if the word-bounded pattern
matches, emit the replacement and resume after the matched span, else copy
one character.  `fuel` starts at the subject length; every step consumes at
least one subject character, so the fuel never runs out. -/
def wordSub (cmd repl : List Char) : Nat → Option Char → List Char → List Char
  | 0, _, text => text
  | fuel + 1, prev, text =>
    match text with
    | [] => []
    | c :: rest =>
      if cmd.length ≠ 0 ∧ matchHere cmd prev (c :: rest) = true then
        repl ++ wordSub cmd repl fuel
          ((c :: rest).take cmd.length).getLast? ((c :: rest).drop cmd.length)
      else
        c :: wordSub cmd repl fuel (some c) rest

/-- One `re.sub(r'\b'+re.escape(cmd)+r'\b', repl, text, flags=IGNORECASE)`
call.  (`re.escape` is the identity on the letters-and-spaces phrases the
command map holds, so the pattern is matched literally.) -/
def reSubWholeWord (cmd repl text : List Char) : List Char :=
  if cmd.isEmpty then text else wordSub cmd repl text.length none text

/-- `VoiceCommands.__init__` / `update_commands` key normalisation followed
by `VoiceCommands.process_text`: lower-case the phrases, then fold the
whole-word substitution over the map in insertion order. -/
def process_text (commands : List (String × String)) (text : String) : String :=
  if text.isEmpty then text
  else
    let normalized := commands.map (fun kv => (kv.1.toList.map toLowerU, kv.2.toList))
    String.mk (normalized.foldl (fun t cr => reSubWholeWord cr.1 cr.2 t) text.toList)

/-- The default `voice_commands` map, read out of the default configuration
document (`Config._get_default_config()["voice_commands"]`). -/
def defaultVoiceCommands : List (String × String) :=
  match lookupF defaultConfigFields "voice_commands" with
  | some (JVal.jobj f) =>
    f.filterMap (fun kv => match kv.2 with
      | JVal.jstr s => some (kv.1, s)
      | _ => none)
  | _ => []

/-! ## Voice activity detector (`src/src/vad.py`)

`VoiceActivityDetector.is_speech` first turns the chunk into one boolean
chunk-level decision (`speech_frames / total_frames > 0.2`, with the
per-30ms-frame classification delegated to the external `webrtcvad`
library); the embedding takes that decision as input and models the
hysteresis logic that follows it (`vad.py` lines 108-132).  The float
comparison `sum(ring) > 0.4 * len(ring)` is embedded as
`5 * sum > 2 * len`: for every `len ≤ 30` (the deque's `maxlen`) and
integer `sum`, the two are equivalent (the IEEE-754 product
`0.4 * len` rounds to exactly `2 * len / 5` whenever that is an integer,
and the comparison against an integer is otherwise unaffected by the
rounding error).
-/

/-- The mutable detector state: the `maxlen=30` ring buffer of chunk
decisions (most recent last), the `_triggered` flag and the
`_silence_frames` counter (`_silence_threshold` is the constant 50). -/
structure VadState where
  ringBuffer : List Bool
  triggered : Bool
  silenceFrames : Nat

/-- `VoiceActivityDetector` state after `__init__` or `reset()`. -/
def vadInit : VadState := ⟨[], false, 0⟩

/-- `collections.deque(maxlen=30).append`. -/
def ringAppend (ring : List Bool) (d : Bool) : List Bool :=
  let r := ring ++ [d]
  if r.length > 30 then r.drop (r.length - 30) else r

/-- `sum(ring)`: the number of `true` decisions buffered. -/
def ringSum (ring : List Bool) : Nat := (ring.filter id).length

/-- The hysteresis step of `VoiceActivityDetector.is_speech`, given the
chunk-level decision `d`; returns the new state, whose `triggered` field is
also the value `is_speech` returns. -/
def vadStep (s : VadState) (d : Bool) : VadState :=
  let ring := ringAppend s.ringBuffer d
  if s.triggered = false then
    if ring.length ≥ 2 ∧ 5 * ringSum ring > 2 * ring.length then
      ⟨ring, true, 0⟩
    else
      ⟨ring, false, s.silenceFrames⟩
  else
    let silence := if d then 0 else s.silenceFrames + 1
    if silence ≥ 50 then
      ⟨ring, false, 0⟩
    else
      ⟨ring, true, silence⟩

/-- Feed a sequence of chunk decisions through the detector. -/
def vadRun (s : VadState) (ds : List Bool) : VadState :=
  ds.foldl vadStep s

/-- Does the detector stay `Triggered` throughout a decision sequence? -/
def vadStaysTriggered (s : VadState) : List Bool → Bool
  | [] => true
  | d :: rest =>
    let s' := vadStep s d
    s'.triggered && vadStaysTriggered s' rest

/-- Reference predicate: starting from a silence run of `n` chunks already
counted, does a decision sequence avoid ever completing a run of 50
consecutive non-speech decisions? -/
def noSilenceDrop : Nat → List Bool → Bool
  | _, [] => true
  | n, d :: rest =>
    if d then noSilenceDrop 0 rest
    else if n + 1 ≥ 50 then false
    else noSilenceDrop (n + 1) rest

/-! ## Model catalog and downloads (`src/src/model_manager.py`) -/

/-- The ids of `AVAILABLE_MODELS`, in catalog order. -/
def catalogIds : List String := ["vosk-model-small-ru-0.22", "vosk-model-ru-0.42"]

/-- The manager's observable state: which model directories exist under the
models root, whether `_download_thread` is alive, and the per-session
fields `_download_cancel` / `_download_progress` (a float only ever carried,
never computed with here) / `_download_status`. -/
structure DownloadManagerState where
  downloadedIds : List String
  workerAlive : Bool
  cancelFlag : Bool
  progress : ℚ
  status : String

/-- What a `download_model` call does before returning: either it invokes
`on_complete(success, message)` immediately without spawning a worker, or it
starts the background download worker. -/
inductive DownloadCallResult where
  | completedImmediately (success : Bool) (message : String)
  | workerStarted
  deriving DecidableEq, Repr

/-- `ModelManager.download_model(model_id, ...)` up to the point where it
returns: unknown id → immediate `on_complete(False, ...)`; already
downloaded → immediate `on_complete(True, "Модель уже скачана")`; a worker
already alive → immediate `on_complete(False, ...)`; otherwise clear the
cancel flag and start the worker. -/
def download_model (st : DownloadManagerState) (modelId : String) :
    DownloadCallResult × DownloadManagerState :=
  if ¬ catalogIds.contains modelId then
    (DownloadCallResult.completedImmediately false ("Модель " ++ modelId ++ " не найдена"), st)
  else if st.downloadedIds.contains modelId then
    (DownloadCallResult.completedImmediately true "Модель уже скачана", st)
  else if st.workerAlive then
    (DownloadCallResult.completedImmediately false "Уже идёт скачивание другой модели", st)
  else
    (DownloadCallResult.workerStarted,
      { st with cancelFlag := false, workerAlive := true })

/-! ## Initial model resolution (`src/src/main.py`, `initialize`) -/

/-- `BASE_PATH`-relative path of the downloaded basic catalog model. -/
def smallModelPath : String := "models/vosk-model-small-ru-0.22"

/-- `BASE_PATH`-relative path of the downloaded high-quality catalog model. -/
def largeModelPath : String := "models/vosk-model-ru-0.42"

/-- The facts `initialize` gathers before choosing a model: whether the two
catalog models are downloaded (`model['is_downloaded']` per quality tag),
and the configured `vosk.model_path` together with whether its resolved
location exists. -/
structure InitEnv where
  smallDownloaded : Bool
  largeDownloaded : Bool
  configuredPath : String
  configuredExists : Bool

/-- What the model-selection block of `initialize` decides. -/
inductive InitChoice where
  | hybrid (initialModel backgroundModel : String)
  | single (model : String)
  | failure (message : String)
  deriving DecidableEq, Repr

/-- The `FileNotFoundError` message raised when no model is available. -/
def modelNotFoundMessage : String :=
  "Модель Vosk не найдена.\nОткройте настройки и скачайте модель."

/-- The model-selection strategy of `initialize` (`main.py` lines 147-203):
small and large both downloaded and distinct → hybrid (load small now,
large in the background); else the configured path if it exists; else the
small model; else the large model; else fail. -/
def resolveInitialModel (e : InitEnv) : InitChoice :=
  let small : Option String := if e.smallDownloaded then some smallModelPath else none
  let large : Option String := if e.largeDownloaded then some largeModelPath else none
  let configured : Option String := if e.configuredExists then some e.configuredPath else none
  match small, large with
  | some s, some l =>
    if s ≠ l then InitChoice.hybrid s l
    else match configured with
      | some c => InitChoice.single c
      | none => InitChoice.single s
  | _, _ =>
    match configured with
    | some c => InitChoice.single c
    | none =>
      match small with
      | some s => InitChoice.single s
      | none =>
        match large with
        | some l => InitChoice.single l
        | none => InitChoice.failure modelNotFoundMessage

/-! ## Speech-recognition wrapper (`src/src/speech_recognition.py`) -/

/-- A `vosk.KaldiRecognizer` as configured by `_load_model`: bound to a
model and a sample rate, with `SetWords` / `SetPartialWords` applied from
the two constructor flags. -/
structure Recognizer where
  modelPath : String
  sampleRate : Nat
  words : Bool
  partialWords : Bool

/-- The fields of a `SpeechRecognition` instance. -/
structure SRState where
  model_path : String
  sample_rate : Nat
  words : Bool
  partial_words : Bool
  loadedModel : String
  recognizer : Recognizer

/-- Modelled from the spec: `SpeechRecognition.switch_model(new_path)` is
absent from `src/src/speech_recognition.py`; only its caller
(`src/src/main.py` line 251, the hybrid background upgrade) is in the tree.
Per the spec (§4.7): "loads a new model and, only if loading succeeds,
atomically replaces the active model+recognizer pair (preserving the
configured flags); ... Returns success/failure; failure leaves the
previously active model untouched."  `loadable` abstracts which paths hold
a loadable model. -/
def switch_model (loadable : String → Bool) (s : SRState) (newPath : String) :
    Bool × SRState :=
  if loadable newPath then
    (true,
      { s with
        model_path := newPath
        loadedModel := newPath
        recognizer := ⟨newPath, s.sample_rate, s.words, s.partial_words⟩ })
  else
    (false, s)

/-! ## Helper lemmas -/

theorem lookupF_setKey (fields : List (String × JVal)) (k' : String) (v : JVal)
    (k : String) :
    lookupF (setKey fields k' v) k = if k' = k then some v else lookupF fields k := by
  induction fields with
  | nil =>
    simp only [setKey, lookupF]
  | cons kv rest ih =>
    obtain ⟨a, b⟩ := kv
    simp only [setKey]
    by_cases hak : a = k'
    · subst hak
      simp only [if_pos rfl, lookupF]
      by_cases h : a = k
      · subst h; simp
      · simp [h]
    · simp only [if_neg hak, lookupF]
      by_cases h : a = k
      · subst h
        have hk : ¬ k' = a := fun hh => hak hh.symm
        simp [hk]
      · simp [h, ih]

theorem lookupF_deepMergeF_none (loaded : List (String × JVal)) :
    ∀ (base : List (String × JVal)) (q : String), lookupF loaded q = none →
      lookupF (deepMergeF base loaded) q = lookupF base q := by
  induction loaded with
  | nil => intro base q _; rfl
  | cons kv rest ih =>
    obtain ⟨k, v⟩ := kv
    intro base q hq
    simp only [lookupF] at hq
    by_cases hkq : k = q
    · simp [hkq] at hq
    · rw [if_neg hkq] at hq
      show lookupF (deepMergeF (setKey base k _) rest) q = _
      rw [ih _ q hq, lookupF_setKey, if_neg hkq]

theorem lookupF_deepMergeF_some (loaded : List (String × JVal)) :
    ∀ (base : List (String × JVal)) (q : String) (v : JVal),
      nodupDeepF loaded = true → lookupF loaded q = some v →
      lookupF (deepMergeF base loaded) q =
        some (match lookupF base q with
              | some bv => deepMergeV bv v
              | none => v) := by
  induction loaded with
  | nil => intro base q v _ hq; simp [lookupF] at hq
  | cons kv rest ih =>
    obtain ⟨k, w⟩ := kv
    intro base q v hn hq
    simp only [nodupDeepF, Bool.and_eq_true] at hn
    simp only [lookupF] at hq
    by_cases hkq : k = q
    · subst hkq
      rw [if_pos rfl] at hq
      cases hq
      have hrest : lookupF rest k = none := by
        cases hlk : lookupF rest k
        · rfl
        · rw [hlk] at hn; simp [Option.isNone] at hn
      show lookupF (deepMergeF (setKey base k _) rest) k = _
      rw [lookupF_deepMergeF_none rest _ k hrest, lookupF_setKey, if_pos rfl]
    · rw [if_neg hkq] at hq
      show lookupF (deepMergeF (setKey base k _) rest) q = _
      rw [ih _ q v hn.2 hq, lookupF_setKey, if_neg hkq]

theorem deepMergeV_eq_of_not_obj (bv v : JVal) (h : ∀ vf, v ≠ JVal.jobj vf) :
    deepMergeV bv v = v := by
  cases bv <;> cases v <;> first
    | rfl
    | exact absurd rfl (h _)

theorem lookupF_of_nodup_mem (fields : List (String × JVal)) (k : String) (v : JVal)
    (hn : nodupDeepF fields = true) (hm : (k, v) ∈ fields) :
    lookupF fields k = some v := by
  induction fields with
  | nil => cases hm
  | cons kv rest ih =>
    obtain ⟨a, b⟩ := kv
    simp only [nodupDeepF, Bool.and_eq_true] at hn
    cases hm with
    | head => simp [lookupF]
    | tail _ hm' =>
      have hrest := ih hn.2 hm'
      simp only [lookupF]
      by_cases hak : a = k
      · subst hak
        rw [hrest] at hn
        simp [Option.isNone] at hn
      · rw [if_neg hak]; exact hrest

theorem nodupDeepV_of_mem (fields : List (String × JVal)) (k : String) (v : JVal)
    (hn : nodupDeepF fields = true) (hm : (k, v) ∈ fields) :
    nodupDeepV v = true := by
  induction fields with
  | nil => cases hm
  | cons kv rest ih =>
    obtain ⟨a, b⟩ := kv
    simp only [nodupDeepF, Bool.and_eq_true] at hn
    cases hm with
    | head => exact hn.1.2
    | tail _ hm' => exact ih hn.2 hm'

theorem mem_of_lookupF (fields : List (String × JVal)) (k : String) (v : JVal)
    (h : lookupF fields k = some v) : (k, v) ∈ fields := by
  induction fields with
  | nil => simp [lookupF] at h
  | cons kv rest ih =>
    obtain ⟨a, b⟩ := kv
    simp only [lookupF] at h
    by_cases hak : a = k
    · subst hak
      rw [if_pos rfl] at h
      cases h
      exact List.mem_cons_self _ _
    · rw [if_neg hak] at h
      exact List.mem_cons_of_mem _ (ih h)

theorem compatF_extract (base : List (String × JVal)) (lf : List (String × JVal))
    (k : String) (dff : List (String × JVal)) (lv : JVal)
    (hc : compatF base lf = true) (hm : (k, JVal.jobj dff) ∈ base)
    (hl : lookupF lf k = some lv) :
    ∃ lff, lv = JVal.jobj lff ∧ compatF dff lff = true := by
  induction base with
  | nil => cases hm
  | cons kv rest ih =>
    obtain ⟨a, b⟩ := kv
    unfold compatF at hc
    rw [Bool.and_eq_true] at hc
    rcases List.mem_cons.mp hm with heq | hm'
    · obtain ⟨ha, hb⟩ := Prod.mk.injEq .. ▸ heq.symm
      subst ha
      subst hb
      have h1 := hc.1
      rw [hl] at h1
      cases lv with
      | jobj lff => exact ⟨lff, rfl, h1⟩
      | jnull => exact absurd h1 (by simp [compatV])
      | jbool _ => exact absurd h1 (by simp [compatV])
      | jnum _ => exact absurd h1 (by simp [compatV])
      | jstr _ => exact absurd h1 (by simp [compatV])
    · exact ih hc.2 hm'

theorem fieldsLeS_of_forall (base M : List (String × JVal))
    (h : ∀ kv ∈ base, ∃ w, lookupF M kv.1 = some w ∧ schemaLe kv.2 w = true) :
    fieldsLeS base M = true := by
  induction base with
  | nil => rfl
  | cons kv rest ih =>
    obtain ⟨k, v⟩ := kv
    obtain ⟨w, hw, hle⟩ := h (k, v) (List.mem_cons_self _ _)
    simp only [fieldsLeS, Bool.and_eq_true]
    refine ⟨?_, ih fun kv' hm => h kv' (List.mem_cons_of_mem _ hm)⟩
    rw [hw]
    exact hle

theorem fieldsLeS_refl (f : List (String × JVal)) (hn : nodupDeepF f = true) :
    fieldsLeS f f = true := by
  apply fieldsLeS_of_forall
  intro kv hm
  obtain ⟨k, w⟩ := kv
  refine ⟨w, lookupF_of_nodup_mem f k w hn hm, ?_⟩
  have hw : nodupDeepV w = true := nodupDeepV_of_mem f k w hn hm
  cases w with
  | jnull => rfl
  | jbool _ => rfl
  | jnum _ => rfl
  | jstr _ => rfl
  | jobj g =>
    have hlt : sizeOf g < sizeOf f := by
      have h1 : sizeOf (k, JVal.jobj g) < sizeOf f := List.sizeOf_lt_of_mem hm
      have h3 : sizeOf (k, JVal.jobj g) = 1 + sizeOf k + (1 + sizeOf g) := by simp
      omega
    show fieldsLeS g g = true
    exact fieldsLeS_refl g hw
termination_by sizeOf f

theorem schemaLe_refl (v : JVal) (hn : nodupDeepV v = true) : schemaLe v v = true := by
  cases v with
  | jnull => rfl
  | jbool _ => rfl
  | jnum _ => rfl
  | jstr _ => rfl
  | jobj f =>
    show fieldsLeS f f = true
    exact fieldsLeS_refl f hn

theorem nodupDeepV_of_lookupF (fields : List (String × JVal)) (k : String) (v : JVal)
    (hn : nodupDeepF fields = true) (h : lookupF fields k = some v) :
    nodupDeepV v = true :=
  nodupDeepV_of_mem fields k v hn (mem_of_lookupF fields k v h)

theorem fieldsLeS_deepMergeF (base loaded : List (String × JVal))
    (hb : nodupDeepF base = true) (hl : nodupDeepF loaded = true)
    (hc : compatF base loaded = true) :
    fieldsLeS base (deepMergeF base loaded) = true := by
  apply fieldsLeS_of_forall
  intro kv hm
  obtain ⟨k, dv⟩ := kv
  have hlk : lookupF base k = some dv := lookupF_of_nodup_mem base k dv hb hm
  cases hq : lookupF loaded k with
  | none =>
    refine ⟨dv, ?_, schemaLe_refl dv (nodupDeepV_of_mem base k dv hb hm)⟩
    rw [lookupF_deepMergeF_none loaded base k hq]
    exact hlk
  | some lv =>
    have hmerge := lookupF_deepMergeF_some loaded base k lv hl hq
    rw [hlk] at hmerge
    refine ⟨deepMergeV dv lv, hmerge, ?_⟩
    cases dv with
    | jnull => rfl
    | jbool _ => rfl
    | jnum _ => rfl
    | jstr _ => rfl
    | jobj dff =>
      obtain ⟨lff, hlv, hcf⟩ := compatF_extract base loaded k dff lv hc hm hq
      subst hlv
      show fieldsLeS dff (deepMergeF dff lff) = true
      have hsz : sizeOf dff < sizeOf base := by
        have h1 : sizeOf (k, JVal.jobj dff) < sizeOf base := List.sizeOf_lt_of_mem hm
        have h2 : sizeOf (k, JVal.jobj dff) = 1 + sizeOf k + (1 + sizeOf dff) := by simp
        omega
      exact fieldsLeS_deepMergeF dff lff
        (nodupDeepV_of_mem base k (JVal.jobj dff) hb hm)
        (nodupDeepV_of_lookupF loaded k (JVal.jobj lff) hl hq) hcf
termination_by sizeOf base

theorem pySplit_all_space (l : List Char) (h : l.all isPySpace = true) :
    pySplit l = [] := by
  induction l with
  | nil => rfl
  | cons c rest ih =>
    simp only [List.all_cons, Bool.and_eq_true] at h
    show ((c :: rest).splitOnP isPySpace).filter (fun w => !w.isEmpty) = []
    rw [List.splitOnP_cons, if_pos h.1]
    show (rest.splitOnP isPySpace).filter (fun w => !w.isEmpty) = []
    exact ih h.2

theorem vadStays_eq_noSilenceDrop (ds : List Bool) :
    ∀ s : VadState, s.triggered = true →
      vadStaysTriggered s ds = noSilenceDrop s.silenceFrames ds := by
  induction ds with
  | nil => intro s _; rfl
  | cons d rest ih =>
    intro s h
    have hstep : vadStep s d =
        if (if d then 0 else s.silenceFrames + 1) ≥ 50 then
          ⟨ringAppend s.ringBuffer d, false, 0⟩
        else
          ⟨ringAppend s.ringBuffer d, true, if d then 0 else s.silenceFrames + 1⟩ := by
      unfold vadStep
      rw [if_neg (by rw [h]; exact fun hh => Bool.noConfusion hh)]
    show ((vadStep s d).triggered && vadStaysTriggered (vadStep s d) rest) =
      noSilenceDrop s.silenceFrames (d :: rest)
    cases d with
    | true =>
      have h0 : ¬ ((if (true = true) then 0 else s.silenceFrames + 1) ≥ 50) := by simp
      rw [hstep, if_neg h0]
      show (true && vadStaysTriggered ⟨ringAppend s.ringBuffer true, true, 0⟩ rest) =
        noSilenceDrop s.silenceFrames (true :: rest)
      rw [Bool.true_and, ih _ rfl]
      rfl
    | false =>
      by_cases h50 : s.silenceFrames + 1 ≥ 50
      · have hp : (if (false = true) then 0 else s.silenceFrames + 1) ≥ 50 := by
          simpa using h50
        rw [hstep, if_pos hp]
        show (false &&
            vadStaysTriggered ⟨ringAppend s.ringBuffer false, false, 0⟩ rest) =
          noSilenceDrop s.silenceFrames (false :: rest)
        rw [Bool.false_and]
        show false =
          if s.silenceFrames + 1 ≥ 50 then false else noSilenceDrop (s.silenceFrames + 1) rest
        rw [if_pos h50]
      · have hn : ¬ ((if (false = true) then 0 else s.silenceFrames + 1) ≥ 50) := by
          simpa using h50
        rw [hstep, if_neg hn]
        show (true && vadStaysTriggered
            ⟨ringAppend s.ringBuffer false, true, s.silenceFrames + 1⟩ rest) =
          noSilenceDrop s.silenceFrames (false :: rest)
        rw [Bool.true_and, ih _ rfl]
        show noSilenceDrop (s.silenceFrames + 1) rest =
          if s.silenceFrames + 1 ≥ 50 then false else noSilenceDrop (s.silenceFrames + 1) rest
        rw [if_neg h50]

theorem setPath_error_of_hits (keys : List String) :
    ∀ (doc : JVal) (v : JVal), setHitsNonDict doc keys = true →
      ∃ e, setPath doc keys v = Except.error e := by
  induction keys with
  | nil =>
    intro doc v h
    cases doc <;> exact ⟨"empty key", rfl⟩
  | cons k rest ih =>
    intro doc v h
    cases doc with
    | jobj fields =>
      cases rest with
      | nil => exact absurd h (by simp [setHitsNonDict])
      | cons r rs =>
        have hlk : ∃ c, lookupF fields k = some c ∧ setHitsNonDict c (r :: rs) = true := by
          unfold setHitsNonDict at h
          cases hc : lookupF fields k with
          | none => rw [hc] at h; exact absurd h (by simp)
          | some c => rw [hc] at h; exact ⟨c, rfl, h⟩
        obtain ⟨c, hc, hhits⟩ := hlk
        obtain ⟨e, he⟩ := ih c v hhits
        refine ⟨e, ?_⟩
        show (match
            (match lookupF fields k with
             | some cc => cc
             | none => JVal.jobj []) with
          | _ => _) = _
        unfold setPath
        rw [hc]
        show (match setPath c (r :: rs) v with
          | Except.ok child' => Except.ok (JVal.jobj (setKey fields k child'))
          | Except.error e => Except.error e) = Except.error e
        rw [he]
    | jnull => exact ⟨"TypeError", by cases rest <;> rfl⟩
    | jbool _ => exact ⟨"TypeError", by cases rest <;> rfl⟩
    | jnum _ => exact ⟨"TypeError", by cases rest <;> rfl⟩
    | jstr _ => exact ⟨"TypeError", by cases rest <;> rfl⟩

/-! ## Claim theorems -/

/-- C1: `switch_model(new_path)` loads the new model and, only if loading
succeeds, replaces the active model and recognizer pair, preserving the
configured `words` / `partial_words` flags and sample rate; it returns
success or failure, and on failure the previously active model and
recognizer are unchanged.  (The operation is modelled from the spec, see
`switch_model`.) -/
theorem claim_C1 (loadable : String → Bool) (s : SRState) (p : String) :
    (loadable p = true →
      (switch_model loadable s p).1 = true ∧
      (switch_model loadable s p).2.model_path = p ∧
      (switch_model loadable s p).2.loadedModel = p ∧
      (switch_model loadable s p).2.recognizer.modelPath = p ∧
      (switch_model loadable s p).2.recognizer.sampleRate = s.sample_rate ∧
      (switch_model loadable s p).2.words = s.words ∧
      (switch_model loadable s p).2.partial_words = s.partial_words ∧
      (switch_model loadable s p).2.recognizer.words = s.words ∧
      (switch_model loadable s p).2.recognizer.partialWords = s.partial_words) ∧
    (loadable p = false →
      (switch_model loadable s p).1 = false ∧
      (switch_model loadable s p).2 = s) := by
  constructor
  · intro h
    simp [switch_model, h]
  · intro h
    simp [switch_model, h]

/-- Witness for C1: a switch to a loadable path succeeds; a switch to an
unloadable path leaves the state untouched. -/
theorem claim_C1_witness :
    (switch_model (fun q => q == "models/vosk-model-ru-0.42")
        ⟨"models/m0", 16000, true, false, "models/m0", ⟨"models/m0", 16000, true, false⟩⟩
        "models/vosk-model-ru-0.42").1 = true ∧
    (switch_model (fun _ => false)
        ⟨"models/m0", 16000, true, false, "models/m0", ⟨"models/m0", 16000, true, false⟩⟩
        "models/vosk-model-ru-0.42").2 =
      ⟨"models/m0", 16000, true, false, "models/m0", ⟨"models/m0", 16000, true, false⟩⟩ :=
  ⟨((claim_C1 (fun q => q == "models/vosk-model-ru-0.42")
      ⟨"models/m0", 16000, true, false, "models/m0", ⟨"models/m0", 16000, true, false⟩⟩
      "models/vosk-model-ru-0.42").1 (by decide)).1,
   ((claim_C1 (fun _ => false)
      ⟨"models/m0", 16000, true, false, "models/m0", ⟨"models/m0", 16000, true, false⟩⟩
      "models/vosk-model-ru-0.42").2 rfl).2⟩

/-- C2 counterexample: on the spec's own input the substitution leaves the
spaces that surrounded the replaced words in place, so the output is
`"привет . как дела ?"`, not the claimed `"привет. как дела?"`. -/
theorem claim_C2_counterexample :
    process_text defaultVoiceCommands "привет точка как дела вопросительный знак" ≠
      "привет. как дела?" ∧
    process_text defaultVoiceCommands "привет точка как дела вопросительный знак" =
      "привет . как дела ?" := by
  constructor
  · decide
  · decide

/-- C2 (amended): with the default voice-command map,
`process_text("привет точка как дела вопросительный знак")` returns exactly
`"привет . как дела ?"` — every configured command phrase is replaced as a
whole word, case-insensitively, without consuming the surrounding spaces,
and non-command words (even ones containing a command phrase as a
substring, like `уточка`) are left untouched. -/
theorem claim_C2 :
    process_text defaultVoiceCommands "привет точка как дела вопросительный знак" =
      "привет . как дела ?" ∧
    process_text defaultVoiceCommands "Привет ТОЧКА как дела" = "Привет . как дела" ∧
    process_text defaultVoiceCommands "уточка плывёт" = "уточка плывёт" := by
  refine ⟨by decide, by decide, by decide⟩

/-- C4: for every configuration file whose contents are not valid JSON,
`load()` does not raise (the embedding is total on that branch), returns
the built-in default document, writes the defaults back to the config
path, and copies the original bytes to the `.json.broken` sibling
(`config.json` → `config.json.broken`). -/
theorem claim_C4 (raw : String) :
    loadConfig (FileContent.invalid raw) =
      ⟨defaultConfig, some defaultConfig, some raw⟩ ∧
    withSuffix "config.json" ".json.broken" = "config.json.broken" :=
  ⟨rfl, rfl⟩

/-- C8: `parse_version` strips a leading `v`/`V`, splits on `.`, keeps only
the digit characters of each segment (dropping digitless segments, `(0,)`
when nothing remains), and `is_newer_version` compares the parsed tuples
lexicographically: `v1.10.2` is newer than `1.9.9` (10 > 9 numerically) and
`1.0.0` is not newer than itself. -/
theorem claim_C8 :
    parse_version "v1.10.2" = [1, 10, 2] ∧
    parse_version "1.9.9" = [1, 9, 9] ∧
    is_newer_version "v1.10.2" "1.9.9" = true ∧
    is_newer_version "1.0.0" "1.0.0" = false ∧
    parse_version "1.beta.2" = [1, 2] ∧
    parse_version "abc" = [0] ∧
    parse_version "" = [0] ∧
    is_newer_version "1.10" "1.9.1" = true := by
  decide

/-- C5: during initialization, if both a downloaded basic and a downloaded
high-quality model exist (their paths always differ), the basic model is
loaded first — hybrid mode wins even over the configured path; otherwise
the initial model is the configured path if it exists, then the basic
model, then the high-quality model; and the resolution fails with the
"model not found, open settings and download one" message exactly when
none of the three exists. -/
theorem claim_C5 (e : InitEnv) :
    (e.smallDownloaded = true → e.largeDownloaded = true →
      resolveInitialModel e = InitChoice.hybrid smallModelPath largeModelPath) ∧
    (¬ (e.smallDownloaded = true ∧ e.largeDownloaded = true) →
      resolveInitialModel e =
        if e.configuredExists then InitChoice.single e.configuredPath
        else if e.smallDownloaded then InitChoice.single smallModelPath
        else if e.largeDownloaded then InitChoice.single largeModelPath
        else InitChoice.failure modelNotFoundMessage) ∧
    (resolveInitialModel e = InitChoice.failure modelNotFoundMessage ↔
      e.smallDownloaded = false ∧ e.largeDownloaded = false ∧
      e.configuredExists = false) := by
  obtain ⟨s, l, p, c⟩ := e
  have hne : smallModelPath ≠ largeModelPath := by decide
  cases s <;> cases l <;> cases c <;>
    simp [resolveInitialModel, hne]

/-- Witness for C5: both catalog models downloaded (configured path also
present) resolves to hybrid; nothing downloaded and no configured path
fails with the model-not-found message. -/
theorem claim_C5_witness :
    resolveInitialModel ⟨true, true, "models/custom", true⟩ =
      InitChoice.hybrid smallModelPath largeModelPath ∧
    resolveInitialModel ⟨false, false, "models/custom", false⟩ =
      InitChoice.failure modelNotFoundMessage :=
  ⟨(claim_C5 ⟨true, true, "models/custom", true⟩).1 rfl rfl,
   (claim_C5 ⟨false, false, "models/custom", false⟩).2.2.mpr ⟨rfl, rfl, rfl⟩⟩

/-- C6: the VAD hysteresis — from `Idle`, a step triggers exactly when at
least 2 decisions are buffered and more than 40% of them are speech (so
consecutive speech chunks trigger at the 2nd chunk, before the 3rd, and
stay triggered); while `Triggered`, the detector stays triggered on a
decision sequence exactly while no run of 50 consecutive non-speech
decisions completes (any speech decision resets the silence run), so one
speech chunk amid 49+49 silence chunks keeps it triggered while 50
consecutive silence chunks drop it to `Idle`. -/
theorem claim_C6 :
    (∀ (s : VadState) (d : Bool), s.triggered = false →
      ((vadStep s d).triggered = true ↔
        2 ≤ (ringAppend s.ringBuffer d).length ∧
        2 * (ringAppend s.ringBuffer d).length <
          5 * ringSum (ringAppend s.ringBuffer d))) ∧
    (vadRun vadInit (List.replicate 2 true)).triggered = true ∧
    vadStaysTriggered (vadRun vadInit (List.replicate 2 true))
      (List.replicate 8 true) = true ∧
    (∀ (s : VadState) (ds : List Bool), s.triggered = true →
      vadStaysTriggered s ds = noSilenceDrop s.silenceFrames ds) ∧
    vadStaysTriggered (vadRun vadInit (List.replicate 2 true))
      (List.replicate 49 false ++ true :: List.replicate 49 false) = true ∧
    (vadRun (vadRun vadInit (List.replicate 2 true))
      (List.replicate 50 false)).triggered = false := by
  refine ⟨?_, by decide, by decide, ?_, by decide, by decide⟩
  · intro s d h
    unfold vadStep
    rw [if_pos h]
    constructor
    · intro ht
      by_cases hc : (ringAppend s.ringBuffer d).length ≥ 2 ∧
          5 * ringSum (ringAppend s.ringBuffer d) > 2 * (ringAppend s.ringBuffer d).length
      · exact ⟨hc.1, hc.2⟩
      · rw [if_neg hc] at ht
        exact absurd ht (by simp)
    · intro hc
      rw [if_pos ⟨hc.1, hc.2⟩]
  · intro s ds h
    exact vadStays_eq_noSilenceDrop ds s h

/-- Witness for C6: the entry rule applied at a concrete one-decision
buffer, and the exit characterisation applied at a concrete triggered
state. -/
theorem claim_C6_witness :
    ((vadStep ⟨[true], false, 0⟩ true).triggered = true ↔
      2 ≤ (ringAppend [true] true).length ∧
      2 * (ringAppend [true] true).length < 5 * ringSum (ringAppend [true] true)) ∧
    vadStaysTriggered ⟨[], true, 3⟩ [false] = noSilenceDrop 3 [false] :=
  ⟨claim_C6.1 ⟨[true], false, 0⟩ true rfl,
   claim_C6.2.2.2.1 ⟨[], true, 3⟩ [false] rfl⟩

/-- C7 counterexample: requesting an already-downloaded model completes
immediately with `on_complete(True, "Модель уже скачана")` — a successful
completion, not the unsuccessful one the claim requires. -/
theorem claim_C7_counterexample :
    (download_model ⟨["vosk-model-small-ru-0.22"], false, false, 0, ""⟩
      "vosk-model-small-ru-0.22").1 =
      DownloadCallResult.completedImmediately true "Модель уже скачана" := by
  decide

/-- C7 (amended): `download_model` completes immediately without starting a
worker in three cases — unknown id (unsuccessfully), already downloaded
(successfully, with "Модель уже скачана"), and another download in flight
(unsuccessfully); while a worker is alive no new worker starts and the
manager state (progress, cancel flag, inventory) is untouched; a worker
only ever starts when none is alive, so at most one download is active at
a time. -/
theorem claim_C7 (st : DownloadManagerState) (id : String) :
    (id ∉ catalogIds →
      download_model st id =
        (DownloadCallResult.completedImmediately false ("Модель " ++ id ++ " не найдена"),
          st)) ∧
    (id ∈ catalogIds → id ∈ st.downloadedIds →
      download_model st id =
        (DownloadCallResult.completedImmediately true "Модель уже скачана", st)) ∧
    (id ∈ catalogIds → id ∉ st.downloadedIds →
      st.workerAlive = true →
      download_model st id =
        (DownloadCallResult.completedImmediately false
          "Уже идёт скачивание другой модели", st)) ∧
    (st.workerAlive = true →
      (download_model st id).2 = st ∧
      (download_model st id).1 ≠ DownloadCallResult.workerStarted) ∧
    ((download_model st id).1 = DownloadCallResult.workerStarted →
      st.workerAlive = false ∧
      (download_model st id).2.workerAlive = true ∧
      (download_model st id).2.cancelFlag = false ∧
      (download_model st id).2.progress = st.progress ∧
      (download_model st id).2.downloadedIds = st.downloadedIds) := by
  refine ⟨?_, ?_, ?_, ?_, ?_⟩
  · intro h1
    simp [download_model, h1]
  · intro h1 h2
    simp [download_model, h1, h2]
  · intro h1 h2 h3
    simp [download_model, h1, h2, h3]
  · intro h1
    by_cases hc : id ∈ catalogIds
    · by_cases hd : id ∈ st.downloadedIds
      · simp [download_model, hc, hd]
      · simp [download_model, hc, hd, h1]
    · simp [download_model, hc]
  · intro h1
    by_cases hc : id ∈ catalogIds
    · by_cases hd : id ∈ st.downloadedIds
      · rw [show download_model st id =
            (DownloadCallResult.completedImmediately true "Модель уже скачана", st) by
          simp [download_model, hc, hd]] at h1
        exact absurd h1 (by simp)
      · by_cases hw : st.workerAlive = true
        · rw [show download_model st id =
              (DownloadCallResult.completedImmediately false
                "Уже идёт скачивание другой модели", st) by
            simp [download_model, hc, hd, hw]] at h1
          exact absurd h1 (by simp)
        · simp only [Bool.not_eq_true] at hw
          refine ⟨hw, ?_, ?_, ?_, ?_⟩ <;> simp [download_model, hc, hd, hw]
    · rw [show download_model st id =
          (DownloadCallResult.completedImmediately false ("Модель " ++ id ++ " не найдена"),
            st) by simp [download_model, hc]] at h1
      exact absurd h1 (by simp)

/-- Witness for C7: a busy manager rejects without state change; an unknown
id rejects unsuccessfully. -/
theorem claim_C7_witness :
    (download_model ⟨[], true, false, 1 / 2, "Скачано: 1.0 / 45.0 МБ"⟩
        "vosk-model-ru-0.42").2 =
      ⟨[], true, false, 1 / 2, "Скачано: 1.0 / 45.0 МБ"⟩ ∧
    download_model ⟨[], false, false, 0, ""⟩ "no-such-model" =
      (DownloadCallResult.completedImmediately false
        ("Модель " ++ "no-such-model" ++ " не найдена"), ⟨[], false, false, 0, ""⟩) :=
  ⟨((claim_C7 ⟨[], true, false, 1 / 2, "Скачано: 1.0 / 45.0 МБ"⟩
      "vosk-model-ru-0.42").2.2.2.1 rfl).1,
   (claim_C7 ⟨[], false, false, 0, ""⟩ "no-such-model").1 (by decide)⟩

/-- C3 counterexample: loading `{"audio": 7}` (which lacks the `vad`
branch) performs no re-persist — the backfilled document is only compared
and logged, never saved — and the loaded non-map value at `audio` shadows
the whole default `audio` branch, so the result is not a superset of the
default schema. -/
theorem claim_C3_counterexample :
    (loadConfig (FileContent.valid (JVal.jobj [("audio", JVal.jnum 7)]))).saved = none ∧
    getPath (loadConfig (FileContent.valid (JVal.jobj [("audio", JVal.jnum 7)]))).config
      ["audio", "sample_rate"] = none ∧
    getPath defaultConfig ["audio", "sample_rate"] = some (JVal.jnum 16000) ∧
    lookupF [("audio", JVal.jnum 7)] "vad" = none :=
  ⟨rfl, rfl, rfl, rfl⟩

/-- C3 (amended): for every persisted document (JSON object) lacking the
`vad` branch, `load()` returns a document with `vad.enabled = true` and
`vad.aggressiveness = 2`; every branch present in the file is preserved
with the loaded value winning (merged recursively only when both sides are
maps, otherwise taken verbatim); the filled-in document is NOT re-persisted
(no save happens on a successfully parsed file); and the result is a
superset of the default schema provided every file value that collides
with a map-valued default branch is itself a map. -/
theorem claim_C3 :
    (∀ loaded : List (String × JVal), lookupF loaded "vad" = none →
      getPath (loadConfig (FileContent.valid (JVal.jobj loaded))).config
        ["vad", "enabled"] = some (JVal.jbool true) ∧
      getPath (loadConfig (FileContent.valid (JVal.jobj loaded))).config
        ["vad", "aggressiveness"] = some (JVal.jnum 2)) ∧
    (∀ (loaded : List (String × JVal)) (k : String) (v : JVal),
      nodupDeepF loaded = true → lookupF loaded k = some v →
      lookupF (deepMergeF defaultConfigFields loaded) k =
        some (match lookupF defaultConfigFields k with
              | some bv => deepMergeV bv v
              | none => v)) ∧
    (∀ bv v : JVal, (∀ vf, v ≠ JVal.jobj vf) → deepMergeV bv v = v) ∧
    (∀ loaded : List (String × JVal),
      (loadConfig (FileContent.valid (JVal.jobj loaded))).saved = none) ∧
    (∀ loaded : List (String × JVal), nodupDeepF loaded = true →
      compatF defaultConfigFields loaded = true →
      fieldsLeS defaultConfigFields (deepMergeF defaultConfigFields loaded) = true) := by
  refine ⟨?_, ?_, ?_, ?_, ?_⟩
  · intro loaded h
    have hv : lookupF (deepMergeF defaultConfigFields loaded) "vad" =
        some (JVal.jobj [("enabled", JVal.jbool true), ("aggressiveness", JVal.jnum 2)]) := by
      rw [lookupF_deepMergeF_none loaded defaultConfigFields "vad" h]
      rfl
    constructor
    · show (match lookupF (deepMergeF defaultConfigFields loaded) "vad" with
        | some v => getPath v ["enabled"]
        | none => none) = some (JVal.jbool true)
      rw [hv]
      rfl
    · show (match lookupF (deepMergeF defaultConfigFields loaded) "vad" with
        | some v => getPath v ["aggressiveness"]
        | none => none) = some (JVal.jnum 2)
      rw [hv]
      rfl
  · intro loaded k v hn hv
    exact lookupF_deepMergeF_some loaded defaultConfigFields k v hn hv
  · exact deepMergeV_eq_of_not_obj
  · intro loaded
    rfl
  · intro loaded hn hc
    exact fieldsLeS_deepMergeF defaultConfigFields loaded (by decide) hn hc

/-- Witness for C3: a one-branch document without `vad` gets the default
`vad` values, keeps its own branch with its own value, and the merged
document contains the whole default schema. -/
theorem claim_C3_witness :
    getPath (loadConfig (FileContent.valid
        (JVal.jobj [("custom", JVal.jnum 5)]))).config ["vad", "enabled"] =
      some (JVal.jbool true) ∧
    lookupF (deepMergeF defaultConfigFields [("custom", JVal.jnum 5)]) "custom" =
      some (match lookupF defaultConfigFields "custom" with
            | some bv => deepMergeV bv (JVal.jnum 5)
            | none => JVal.jnum 5) ∧
    fieldsLeS defaultConfigFields
      (deepMergeF defaultConfigFields [("custom", JVal.jnum 5)]) = true :=
  ⟨(claim_C3.1 [("custom", JVal.jnum 5)] rfl).1,
   claim_C3.2.1 [("custom", JVal.jnum 5)] "custom" (JVal.jnum 5) (by decide) rfl,
   claim_C3.2.2.2.2 [("custom", JVal.jnum 5)] (by decide) (by decide)⟩

/-- C9 counterexample: a transcript ending in a TAB — a whitespace
character — still gets a trailing space appended, because the code only
checks for `' '`, `'\n'` and `'\r'`, so "unless the text already ends in
whitespace" is too broad. -/
theorem claim_C9_counterexample :
    appendTrailingSpace "привет\t" = "привет\t " ∧ isPySpace '\t' = true := by
  constructor
  · decide
  · rfl

/-- C9 (amended): for every final non-empty processed transcript, exactly
one trailing space is appended unless the text already ends in a space,
newline, or carriage return (not arbitrary whitespace); the word counter
splits on whitespace discarding blank tokens, so `"  hello   world  "`
counts 2 words and an empty or whitespace-only string counts 0. -/
theorem claim_C9 :
    (∀ (text : String) (c : Char), text.toList.getLast? = some c →
      ((c = ' ' ∨ c = '\n' ∨ c = '\r') → appendTrailingSpace text = text) ∧
      (¬ (c = ' ' ∨ c = '\n' ∨ c = '\r') → appendTrailingSpace text = text ++ " ")) ∧
    count_words "  hello   world  " = 2 ∧
    count_words "" = 0 ∧
    (∀ text : String, text.toList.all isPySpace = true → count_words text = 0) := by
  refine ⟨?_, by decide, by decide, ?_⟩
  · intro text c h
    constructor
    · intro hc
      show (match text.toList.getLast? with
        | some c => if c = ' ' ∨ c = '\n' ∨ c = '\r' then text else text ++ " "
        | none => text ++ " ") = text
      rw [h]
      show (if c = ' ' ∨ c = '\n' ∨ c = '\r' then text else text ++ " ") = text
      rw [if_pos hc]
    · intro hc
      show (match text.toList.getLast? with
        | some c => if c = ' ' ∨ c = '\n' ∨ c = '\r' then text else text ++ " "
        | none => text ++ " ") = text ++ " "
      rw [h]
      show (if c = ' ' ∨ c = '\n' ∨ c = '\r' then text else text ++ " ") = text ++ " "
      rw [if_neg hc]
  · intro text hall
    unfold count_words
    by_cases he : text.isEmpty
    · rw [if_pos he]
    · rw [if_neg he, pySplit_all_space text.toList hall]
      rfl

/-- Witness for C9: the trailing-space rule applied at a concrete text
not ending in space/newline, and the whitespace-only word count at a
concrete string. -/
theorem claim_C9_witness :
    appendTrailingSpace "ab" = "ab" ++ " " ∧ count_words "\t \t" = 0 :=
  ⟨(claim_C9.1 "ab" 'b' rfl).2 (by decide),
   claim_C9.2.2.2 "\t \t" (by decide)⟩

/-- C10: `Config.set` creates intermediate maps only for absent path
components; for every dotted key whose traversal meets a component that
already exists in the document as a non-map value, the call raises
`TypeError` and no save to disk occurs — in particular
`set("auto_start.x", v)` on the default document, where `auto_start` holds
a boolean. -/
theorem claim_C10 :
    (∀ (doc : JVal) (key : String) (v : JVal),
      setHitsNonDict doc (splitDotted key) = true →
      (∃ e, (config_set doc key v).1 = Except.error e) ∧
      (config_set doc key v).2 = none) ∧
    setHitsNonDict defaultConfig (splitDotted "auto_start.x") = true := by
  constructor
  · intro doc key v h
    obtain ⟨e, he⟩ := setPath_error_of_hits (splitDotted key) doc v h
    have h1 : config_set doc key v = (Except.error e, none) := by
      unfold config_set
      rw [he]
    exact ⟨⟨e, by rw [h1]⟩, by rw [h1]⟩
  · decide

/-- Witness for C10: `set("auto_start.x", "v")` on the default document
raises and performs no save. -/
theorem claim_C10_witness :
    (∃ e, (config_set defaultConfig "auto_start.x" (JVal.jstr "v")).1 =
      Except.error e) ∧
    (config_set defaultConfig "auto_start.x" (JVal.jstr "v")).2 = none :=
  claim_C10.1 defaultConfig "auto_start.x" (JVal.jstr "v") (by decide)

end VoiceInput
